import Mathlib

/-!
# Verification of `pokemon_extractor.py`

Shallow embedding of the Pokemon-card extraction script.  The script reads
JSON files, keeps the records whose `supertype` is exactly `"Pokémon"`,
flattens each into a seven-field row and serialises the aggregated rows to a
CSV file and to a file of SQL INSERT statements.

Python runtime values (as produced by `json.load`) are modelled by `PyVal`;
exceptions are modelled by `Except String`; the outcome of opening and
parsing one input file is modelled by `FileRead`.  Output files are modelled
as the strings the program would write.
-/

set_option autoImplicit false

/-- A Python value as produced by `json.load`: strings, integers, booleans,
`None` (JSON `null`), lists, and dicts.  A dict is an association list whose
keys are distinct (JSON objects; `json.load` keeps the last duplicate, so a
parsed object never carries two bindings of one key). -/
inductive PyVal where
  | str (s : String)
  | int (n : Int)
  | bool (b : Bool)
  | null
  | list (xs : List PyVal)
  | dict (fields : List (String × PyVal))
deriving Repr

/-- Python truthiness: empty string/list/dict, `0`, `False` and `None` are
falsy, everything else is truthy. -/
def PyVal.truthy : PyVal → Bool
  | .str s => !s.isEmpty
  | .int n => n != 0
  | .bool b => b
  | .null => false
  | .list xs => !xs.isEmpty
  | .dict fs => !fs.isEmpty

/-- Python `v == s` for a string literal `s`: true exactly when `v` is that
string (values of other types never compare equal to a string). -/
def PyVal.eqStr : PyVal → String → Bool
  | .str t, s => t == s
  | _, _ => false

/-- `card.get(key, dflt)`: on a dict, the stored value or the default; on
any non-dict value the attribute access raises (`AttributeError`). -/
def pyGet (card : PyVal) (key : String) (dflt : PyVal) : Except String PyVal :=
  match card with
  | .dict fs => Except.ok ((fs.lookup key).getD dflt)
  | _ => Except.error "AttributeError"

/-- Python `repr` of a string (as used when a composite value is converted
to text): double-quoted when the string holds a single quote and no double
quote, otherwise single-quoted with embedded single quotes escaped. -/
def pyReprStr (s : String) : String :=
  if s.data.contains '\'' && !s.data.contains '"' then
    "\"" ++ s ++ "\""
  else
    "'" ++ String.join (s.data.map (fun c =>
      if c = '\'' then "\\'" else if c = '\\' then "\\\\" else String.mk [c])) ++ "'"

mutual
/-- Python `repr` of a value. -/
def pyRepr : PyVal → String
  | .str s => pyReprStr s
  | .int n => toString n
  | .bool b => if b then "True" else "False"
  | .null => "None"
  | .list xs => "[" ++ pyReprCommaList xs ++ "]"
  | .dict fs => "\x7b" ++ pyReprCommaDict fs ++ "\x7d"

/-- Comma-separated `repr`s of the elements of a list. -/
def pyReprCommaList : List PyVal → String
  | [] => ""
  | [v] => pyRepr v
  | v :: vs => pyRepr v ++ ", " ++ pyReprCommaList vs

/-- Comma-separated `key: value` renderings of the entries of a dict. -/
def pyReprCommaDict : List (String × PyVal) → String
  | [] => ""
  | [kv] => pyReprStr kv.1 ++ ": " ++ pyRepr kv.2
  | kv :: kvs => pyReprStr kv.1 ++ ": " ++ pyRepr kv.2 ++ ", " ++ pyReprCommaDict kvs
end

/-- Python `str` of a value (the conversion applied by f-strings and by the
csv writer): a string is itself, anything else is its `repr`-style text. -/
def pyStr : PyVal → String
  | .str s => s
  | v => pyRepr v

/-- Python `sep.join` on a list of strings: the elements in order with the
separator between consecutive ones. -/
def joinSep (sep : String) : List String → String
  | [] => ""
  | [x] => x
  | x :: xs => x ++ sep ++ joinSep sep xs

/-- Collects the strings of a list of values; raises `TypeError` at the
first non-string element — the behaviour of `', '.join` on its items. -/
def strList : List PyVal → Except String (List String)
  | [] => Except.ok []
  | PyVal.str s :: xs => (strList xs).map (fun rest => s :: rest)
  | _ :: _ => Except.error "TypeError"

/-- Python `sep.join(v)`: joins a list of strings; a string joins its
characters; a dict joins its keys; anything else raises `TypeError`. -/
def joinStrs (sep : String) : PyVal → Except String String
  | .list xs => (strList xs).map (joinSep sep)
  | .str s => Except.ok (joinSep sep (s.data.map (fun c => String.mk [c])))
  | .dict fs => Except.ok (joinSep sep (fs.map Prod.fst))
  | _ => Except.error "TypeError"

/-- Python iteration `for x in v`: a list yields its elements, a string its
characters, a dict its keys; anything else raises `TypeError`. -/
def pyIter : PyVal → Except String (List PyVal)
  | .list xs => Except.ok xs
  | .str s => Except.ok (s.data.map (fun c => PyVal.str (String.mk [c])))
  | .dict fs => Except.ok (fs.map (fun kv => PyVal.str kv.1))
  | _ => Except.error "TypeError"

/-- One extracted row.  In the source the row is a dict whose `subtypes`,
`types` and `weaknesses` values are always Python strings (either a join
result or `''`), while `id`, `name`, `level` and `hp` are stored exactly as
`card.get` returned them. -/
structure Row where
  id : PyVal
  name : PyVal
  subtypes : String
  level : PyVal
  hp : PyVal
  types : String
  weaknesses : String
deriving Repr

/-- The rendering `f"{w.get('type', '')}({w.get('value', '')})"` of one
weakness entry. -/
def renderWeakness (w : PyVal) : Except String String := do
  let t ← pyGet w "type" (PyVal.str "")
  let v ← pyGet w "value" (PyVal.str "")
  Except.ok (pyStr t ++ "(" ++ pyStr v ++ ")")

/-- Renders every weakness entry, raising at the first failing one (the
list comprehension inside the join). -/
def renderWeaks : List PyVal → Except String (List String)
  | [] => Except.ok []
  | w :: ws => do
    let s ← renderWeakness w
    let rest ← renderWeaks ws
    Except.ok (s :: rest)

/-- The expression `', '.join(card.get(key, [])) if card.get(key) else ''`
used for the `subtypes` and `types` entries of the row. -/
def joinedField (card : PyVal) (key : String) : Except String String := do
  let cond ← pyGet card key PyVal.null
  if cond.truthy then do
    let v ← pyGet card key (PyVal.list [])
    joinStrs ", " v
  else Except.ok ""

/-- The `weaknesses` entry of the row: the comma-join of the rendered
entries of `card.get('weaknesses', [])` when `card.get('weaknesses')` is
truthy, the empty string otherwise. -/
def weaknessesField (card : PyVal) : Except String String := do
  let cond ← pyGet card "weaknesses" PyVal.null
  if cond.truthy then do
    let wv ← pyGet card "weaknesses" (PyVal.list [])
    let ws ← pyIter wv
    let rendered ← renderWeaks ws
    Except.ok (joinSep ", " rendered)
  else Except.ok ""

/-- The body of the extraction loop for one record `card`: `Except.ok none`
when the record is skipped (its `supertype` is not `'Pokémon'`),
`Except.ok (some row)` when a row is built, `Except.error` when a Python
exception escapes the body. -/
def extractCard (card : PyVal) : Except String (Option Row) := do
  let st ← pyGet card "supertype" PyVal.null
  if st.eqStr "Pokémon" then
    let idv ← pyGet card "id" (PyVal.str "")
    let namev ← pyGet card "name" (PyVal.str "")
    let subtypes ← joinedField card "subtypes"
    let levelv ← pyGet card "level" (PyVal.str "")
    let hpv ← pyGet card "hp" (PyVal.str "")
    let types ← joinedField card "types"
    let weaknesses ← weaknessesField card
    Except.ok (some ⟨idv, namev, subtypes, levelv, hpv, types, weaknesses⟩)
  else
    Except.ok Option.none

/-- The extraction loop over the parsed records.  On an exception the rows
appended before the failing record are kept: the Python `try` block wraps
the whole loop and `extracted_data` is returned after the handler runs. -/
def extractCards : List PyVal → List Row
  | [] => []
  | c :: rest =>
    match extractCard c with
    | .error _ => []
    | .ok Option.none => extractCards rest
    | .ok (some r) => r :: extractCards rest

/-- Whether the loop over the parsed records raises on some record. -/
def extractFails : List PyVal → Bool
  | [] => false
  | c :: rest =>
    match extractCard c with
    | .error _ => true
    | .ok _ => extractFails rest

/-- The outcome of opening and parsing one input file: the path does not
exist (`FileNotFoundError`), the contents are not valid JSON
(`JSONDecodeError`), or parsing succeeded with the given value. -/
inductive FileRead where
  | notFound
  | badJson
  | content (data : PyVal)
deriving Repr

/-- `extract_pokemon_data`: the rows extracted from one input file.  All
three exception handlers print and fall through to `return extracted_data`,
so a pre-loop failure yields `[]` and a mid-loop failure yields the rows
accumulated so far. -/
def extract_pokemon_data : FileRead → List Row
  | .notFound => []
  | .badJson => []
  | .content data =>
    match pyIter data with
    | .error _ => []
    | .ok cards => extractCards cards

/-- Whether processing the file hits any of the three exception handlers. -/
def fileFails : FileRead → Bool
  | .notFound => true
  | .badJson => true
  | .content data =>
    match pyIter data with
    | .error _ => true
    | .ok cards => extractFails cards

/-! ## The two writers -/

/-- Doubles every `"` character, the escaping the csv module applies inside
a quoted field. -/
def csvEscapeChars : List Char → List Char
  | [] => []
  | c :: cs =>
    if c = '"' then '"' :: '"' :: csvEscapeChars cs
    else c :: csvEscapeChars cs

/-- Minimal csv quoting: a field is emitted verbatim unless it holds the
delimiter, the quote character or a line-terminator character, in which case
it is wrapped in quotes with inner quotes doubled. -/
def csvQuote (s : String) : String :=
  if s.data.any (fun c => c = ',' || c = '"' || c = '\r' || c = '\n') then
    "\"" ++ String.mk (csvEscapeChars s.data) ++ "\""
  else s

/-- How the csv module renders one stored cell value: `None` becomes the
empty field, a string is itself, anything else is its `str` text. -/
def csvCell : PyVal → String
  | PyVal.null => ""
  | v => pyStr v

/-- The seven cell texts of a row, in the writer's field order. -/
def rowCells (r : Row) : List String :=
  [csvCell r.id, csvCell r.name, r.subtypes, csvCell r.level, csvCell r.hp,
   r.types, r.weaknesses]

/-- The header line written by `writer.writeheader()`. -/
def csvHeader : String := "id,name,subtypes,level,hp,types,weaknesses"

/-- One data line written by the `DictWriter` for one row. -/
def csvRowLine (r : Row) : String :=
  joinSep "," ((rowCells r).map csvQuote)

/-- Concatenates lines, each terminated by the csv module's default
`\r\n` terminator. -/
def renderLinesCRLF : List String → String
  | [] => ""
  | l :: ls => l ++ "\r\n" ++ renderLinesCRLF ls

/-- `write_to_csv`: `none` when the row list is empty (the function prints
`No data to write` and returns without writing), otherwise the full text
written to the output file. -/
def write_to_csv (rows : List Row) : Option String :=
  if rows.isEmpty then Option.none
  else some (renderLinesCRLF (csvHeader :: rows.map csvRowLine))

/-- Doubles every `'` character — `value.replace("'", "''")`. -/
def sqlEscapeChars : List Char → List Char
  | [] => []
  | c :: cs =>
    if c = '\'' then '\'' :: '\'' :: sqlEscapeChars cs
    else c :: sqlEscapeChars cs

/-- String form of the quote-doubling escape. -/
def sqlEscapeString (s : String) : String := String.mk (sqlEscapeChars s.data)

/-- The text a stored cell value contributes to a VALUES literal: string
values are escaped by quote doubling, any other value is embedded through
`str` unescaped (the `isinstance(value, str)` guard). -/
def sqlEscapeVal : PyVal → String
  | .str s => sqlEscapeString s
  | v => pyStr v

/-- The fixed CREATE TABLE preamble written before the INSERT statements. -/
def sqlPreamble : String :=
  "-- Pokemon Cards Table Creation\nCREATE TABLE IF NOT EXISTS pokemon_cards (\n    id VARCHAR(50) PRIMARY KEY,\n    name VARCHAR(100) NOT NULL,\n    subtypes VARCHAR(100),\n    level VARCHAR(10),\n    hp VARCHAR(10),\n    types VARCHAR(100),\n    weaknesses VARCHAR(100)\n);\n\n-- Clear existing data (optional)\n-- DELETE FROM pokemon_cards;\n\n-- Insert statements\n"

/-- The INSERT statement emitted for one row (exact text of the f-string,
including its trailing spaces and newlines). -/
def insertStatement (r : Row) : String :=
  "INSERT INTO pokemon_cards (id, name, subtypes, level, hp, types, weaknesses) \nVALUES ('"
    ++ sqlEscapeVal r.id ++ "', '" ++ sqlEscapeVal r.name ++ "', '"
    ++ sqlEscapeString r.subtypes ++ "', \n        '"
    ++ sqlEscapeVal r.level ++ "', '" ++ sqlEscapeVal r.hp ++ "', '"
    ++ sqlEscapeString r.types ++ "', '" ++ sqlEscapeString r.weaknesses
    ++ "');\n"

/-- `write_to_sql`: `none` when the row list is empty (prints and performs
no write), otherwise the full text written to the output file. -/
def write_to_sql (rows : List Row) : Option String :=
  if rows.isEmpty then Option.none
  else some (sqlPreamble ++ String.join (rows.map insertStatement))

/-! ## Path derivation and the two entry points -/

/-- `output_file.replace('.csv', '.sql')` at character level: every
non-overlapping occurrence of `.csv`, scanned left to right, becomes
`.sql`. -/
def csvToSql : List Char → List Char
  | '.' :: 'c' :: 's' :: 'v' :: rest => '.' :: 's' :: 'q' :: 'l' :: csvToSql rest
  | c :: rest => c :: csvToSql rest
  | [] => []

/-- The statement-file path the program derives from the tabular path. -/
def csvToSqlPath (p : String) : String := String.mk (csvToSql p.data)

/-- Whether `.csv` occurs in the character list. -/
def hasCsv : List Char → Bool
  | [] => false
  | c :: cs => (decide (c = '.') && decide (cs.take 3 = ['c', 's', 'v'])) || hasCsv cs

/-- The two output files of one run: `some (path, text)` when the file is
written, `none` when nothing is written to that path. -/
structure RunOutput where
  rows : List Row
  csvFile : Option (String × String)
  sqlFile : Option (String × String)

/-- The aggregate `all_data` built by extending a list with the rows of
each file in discovery order. -/
def allRowsOf (files : List FileRead) : List Row :=
  files.foldl (fun acc f => acc ++ extract_pokemon_data f) []

/-- `process_multiple_json_files`: stops before writing anything when the
directory holds no `.json` files, otherwise extracts per file in discovery
order, concatenates, and hands the aggregate to both writers. -/
def process_multiple_json_files (files : List FileRead) (output_file : String) :
    RunOutput :=
  if files.isEmpty then ⟨[], Option.none, Option.none⟩
  else
    let all_data := allRowsOf files
    ⟨all_data,
     (write_to_csv all_data).map (fun text => (output_file, text)),
     (write_to_sql all_data).map (fun text => (csvToSqlPath output_file, text))⟩

/-- `process_single_file`: extracts one file and hands the rows to both
writers, deriving the statement path the same way. -/
def process_single_file (file : FileRead) (output_csv : String) : RunOutput :=
  let data := extract_pokemon_data file
  ⟨data,
   (write_to_csv data).map (fun text => (output_csv, text)),
   (write_to_sql data).map (fun text => (csvToSqlPath output_csv, text))⟩

/-! ## The documented input format (spec section 6) -/

/-- Whether a value is a Python string. -/
def PyVal.isStr : PyVal → Bool
  | .str _ => true
  | _ => false

/-- An optional field that, when present, is a string. -/
def isStrOpt : Option PyVal → Bool
  | Option.none => true
  | some v => v.isStr

/-- An optional field that, when present, is a list of strings. -/
def isStrListOpt : Option PyVal → Bool
  | Option.none => true
  | some (PyVal.list xs) => xs.all PyVal.isStr
  | some _ => false

/-- A weakness entry: an object whose `type` and `value` fields, when
present, are strings. -/
def isWeaknessObj : PyVal → Bool
  | .dict wfs => isStrOpt (wfs.lookup "type") && isStrOpt (wfs.lookup "value")
  | _ => false

/-- An optional field that, when present, is a list of weakness objects. -/
def isWeakListOpt : Option PyVal → Bool
  | Option.none => true
  | some (PyVal.list ws) => ws.all isWeaknessObj
  | some _ => false

/-- A record in the documented input format: an object whose `id`, `name`,
`level`, `hp`, `supertype` fields are strings when present, whose
`subtypes` and `types` are arrays of strings when present, and whose
`weaknesses` is an array of `type`/`value` objects when present. -/
def WellFormedCard : PyVal → Bool
  | .dict fs =>
      isStrOpt (fs.lookup "id") && isStrOpt (fs.lookup "name") &&
      isStrOpt (fs.lookup "level") && isStrOpt (fs.lookup "hp") &&
      isStrOpt (fs.lookup "supertype") &&
      isStrListOpt (fs.lookup "subtypes") && isStrListOpt (fs.lookup "types") &&
      isWeakListOpt (fs.lookup "weaknesses")
  | _ => false

/-! ## The row the specification describes (for refinement statements) -/

/-- The string carried by a string value, the empty string otherwise. -/
def strOf : PyVal → String
  | .str s => s
  | _ => ""

/-- The element list of an optional array field: absent or non-list gives
the empty sequence. -/
def listOfOpt : Option PyVal → List PyVal
  | some (PyVal.list xs) => xs
  | _ => []

/-- The `type(value)` rendering the spec gives for one weakness entry. -/
def weaknessTextSpec : PyVal → String
  | .dict wfs =>
      strOf ((wfs.lookup "type").getD (PyVal.str "")) ++ "(" ++
      strOf ((wfs.lookup "value").getD (PyVal.str "")) ++ ")"
  | _ => ""

/-- Modelled from the spec's words for a retained record: identifier and
name equal the source's `id` and `name` (empty string when absent), the
list-valued fields are comma-joined in source order, and each weakness is
rendered `type(value)`. -/
def rowSpec (fs : List (String × PyVal)) : Row where
  id := (fs.lookup "id").getD (PyVal.str "")
  name := (fs.lookup "name").getD (PyVal.str "")
  subtypes := joinSep ", " ((listOfOpt (fs.lookup "subtypes")).map strOf)
  level := (fs.lookup "level").getD (PyVal.str "")
  hp := (fs.lookup "hp").getD (PyVal.str "")
  types := joinSep ", " ((listOfOpt (fs.lookup "types")).map strOf)
  weaknesses := joinSep ", " ((listOfOpt (fs.lookup "weaknesses")).map weaknessTextSpec)

/-- Modelled from the spec's words for an arbitrary record: a row exactly
when `supertype` equals `'Pokémon'`, no row otherwise. -/
def recordRowSpec : PyVal → Option Row
  | .dict fs =>
      if ((fs.lookup "supertype").getD PyVal.null).eqStr "Pokémon" then
        some (rowSpec fs)
      else Option.none
  | _ => Option.none

/-- Modelled from the spec: the statement path obtained by swapping the
tabular path's file extension (everything from the last dot on) for the
statement-file extension `.sql`. -/
def extSwapSpec (p : String) : String :=
  if '.' ∈ p.data then
    String.mk ((p.data.reverse.dropWhile (fun c => c ≠ '.')).reverse ++ ['s', 'q', 'l'])
  else p ++ ".sql"

/-! ## Helpers for stating the claims -/

/-- Whether an `Except` computation succeeded. -/
def isOkE {α : Type} : Except String α → Bool
  | .ok _ => true
  | .error _ => false

/-- The row (if any) of a loop-body outcome: `none` for a skip or error. -/
def okRow : Except String (Option Row) → Option Row
  | .ok o => o
  | .error _ => Option.none

/-- Number of `\n` characters in a string. -/
def countNL (s : String) : Nat := s.data.countP (· == '\n')

/-- A scanner for a single-quoted SQL literal, started just after the
opening quote: `''` is an escaped quote, a lone `'` terminates the literal
and the remainder is returned, and `none` means the literal never
terminates. -/
def scanLit : List Char → Option (List Char)
  | [] => Option.none
  | c :: rest =>
    if c = '\'' then
      match rest with
      | r :: rest2 => if r = '\'' then scanLit rest2 else some rest
      | [] => some rest
    else scanLit rest

/-! ## Concrete records used by witnesses and counterexamples -/

/-- A well-formed Pokémon record. -/
def goodCard : PyVal :=
  PyVal.dict [("supertype", PyVal.str "Pokémon"), ("id", PyVal.str "p1"),
              ("name", PyVal.str "Pika")]

/-- The scenario record of spec section 8: a Pokémon named Pikachu with one
elemental type. -/
def pikachuCard : PyVal :=
  PyVal.dict [("id", PyVal.str "base1-58"), ("name", PyVal.str "Pikachu"),
              ("supertype", PyVal.str "Pokémon"),
              ("types", PyVal.list [PyVal.str "Lightning"]),
              ("weaknesses", PyVal.list
                [PyVal.dict [("type", PyVal.str "Fire"), ("value", PyVal.str "×2")]])]

/-- A record of a different supertype, producing no row. -/
def trainerCard : PyVal :=
  PyVal.dict [("id", PyVal.str "base1-91"), ("name", PyVal.str "Bill"),
              ("supertype", PyVal.str "Trainer")]

/-- A file whose parsed content holds a valid Pokémon record followed by a
non-object entry: the loop appends one row and then raises. -/
def mixedFile : FileRead := FileRead.content (PyVal.list [goodCard, PyVal.int 5])

/-- A matching record with most optional fields absent and an empty
`subtypes` array. -/
def sparseCardFields : List (String × PyVal) :=
  [("supertype", PyVal.str "Pokémon"), ("subtypes", PyVal.list [])]

/-- The row extracted from `pikachuCard`. -/
def pikachuRow : Row :=
  ⟨PyVal.str "base1-58", PyVal.str "Pikachu", "", PyVal.str "", PyVal.str "",
   "Lightning", "Fire(×2)"⟩

example : csvToSqlPath "all_pokemon_data.csv" = "all_pokemon_data.sql" := rfl
example : csvToSqlPath "x.csv.csv" = "x.sql.sql" := rfl
example : extract_pokemon_data (.content (.list
    [PyVal.dict [("supertype", PyVal.str "Pokémon"), ("id", PyVal.str "a"),
                 ("name", PyVal.str "Pika")]])) =
    [⟨PyVal.str "a", PyVal.str "Pika", "", PyVal.str "", PyVal.str "", "", ""⟩] := rfl
example : extract_pokemon_data mixedFile =
    [⟨PyVal.str "p1", PyVal.str "Pika", "", PyVal.str "", PyVal.str "", "", ""⟩] := rfl
example : recordRowSpec pikachuCard = some
    ⟨PyVal.str "base1-58", PyVal.str "Pikachu", "", PyVal.str "", PyVal.str "",
     "Lightning", "Fire(×2)"⟩ := rfl
example : extract_pokemon_data (.content (.list [pikachuCard, trainerCard])) =
    [⟨PyVal.str "base1-58", PyVal.str "Pikachu", "", PyVal.str "", PyVal.str "",
      "Lightning", "Fire(×2)"⟩] := rfl

/-! ## Reduction lemmas -/

@[simp] theorem ok_bind {α β : Type} (a : α) (f : α → Except String β) :
    (Except.ok a >>= f : Except String β) = f a := rfl

@[simp] theorem error_bind {α β : Type} (e : String) (f : α → Except String β) :
    (Except.error e >>= f : Except String β) = Except.error e := rfl

@[simp] theorem ok_map {α β : Type} (a : α) (f : α → β) :
    (Except.ok a : Except String α).map f = Except.ok (f a) := rfl

@[simp] theorem pyGet_dict (fs : List (String × PyVal)) (key : String) (dflt : PyVal) :
    pyGet (PyVal.dict fs) key dflt = Except.ok ((fs.lookup key).getD dflt) := rfl

/-! ## The extractor on well-formed records -/

theorem strList_all (xs : List PyVal) (h : xs.all PyVal.isStr = true) :
    strList xs = Except.ok (xs.map strOf) := by
  induction xs with
  | nil => rfl
  | cons x rest ih => rcases x with s | n | b | _ | l | d <;>
      simp_all [strList, PyVal.isStr, strOf]

theorem joinedField_wf (fs : List (String × PyVal)) (key : String)
    (h : isStrListOpt (fs.lookup key) = true) :
    joinedField (PyVal.dict fs) key =
      Except.ok (joinSep ", " ((listOfOpt (fs.lookup key)).map strOf)) := by
  unfold joinedField
  cases hk : fs.lookup key with
  | none => simp [hk, PyVal.truthy, listOfOpt, joinSep]
  | some v =>
    rw [hk] at h
    rcases v with s | n | b | _ | xs | d
    case list =>
      cases xs with
      | nil => simp [hk, PyVal.truthy, listOfOpt, joinSep]
      | cons x rest =>
        simp only [isStrListOpt] at h
        simp [hk, PyVal.truthy, joinStrs, listOfOpt, strList_all _ h]
    all_goals simp [isStrListOpt] at h

theorem pyStr_strOpt (o : Option PyVal) (h : isStrOpt o = true) :
    pyStr (o.getD (PyVal.str "")) = strOf (o.getD (PyVal.str "")) := by
  cases o with
  | none => rfl
  | some v => cases v <;> simp_all [isStrOpt, PyVal.isStr, pyStr, strOf]

theorem renderWeakness_wf (w : PyVal) (h : isWeaknessObj w = true) :
    renderWeakness w = Except.ok (weaknessTextSpec w) := by
  rcases w with s | n | b | _ | l | wfs
  case dict =>
    simp only [isWeaknessObj, Bool.and_eq_true] at h
    unfold renderWeakness
    simp [pyStr_strOpt _ h.1, pyStr_strOpt _ h.2, weaknessTextSpec]
  all_goals simp [isWeaknessObj] at h

theorem renderWeaks_all (ws : List PyVal) (h : ws.all isWeaknessObj = true) :
    renderWeaks ws = Except.ok (ws.map weaknessTextSpec) := by
  induction ws with
  | nil => rfl
  | cons w rest ih =>
    rw [List.all_cons, Bool.and_eq_true] at h
    simp [renderWeaks, renderWeakness_wf w h.1, ih h.2]

theorem weaknessesField_wf (fs : List (String × PyVal))
    (h : isWeakListOpt (fs.lookup "weaknesses") = true) :
    weaknessesField (PyVal.dict fs) =
      Except.ok (joinSep ", " ((listOfOpt (fs.lookup "weaknesses")).map weaknessTextSpec)) := by
  unfold weaknessesField
  cases hk : fs.lookup "weaknesses" with
  | none => simp [hk, PyVal.truthy, listOfOpt, joinSep]
  | some v =>
    rw [hk] at h
    rcases v with s | n | b | _ | ws | d
    case list =>
      cases ws with
      | nil => simp [hk, PyVal.truthy, listOfOpt, joinSep]
      | cons w rest =>
        simp only [isWeakListOpt] at h
        simp [hk, PyVal.truthy, pyIter, listOfOpt, renderWeaks_all _ h]
    all_goals simp [isWeakListOpt] at h

theorem extractCard_skip (fs : List (String × PyVal))
    (h : ((fs.lookup "supertype").getD PyVal.null).eqStr "Pokémon" = false) :
    extractCard (PyVal.dict fs) = Except.ok Option.none := by
  unfold extractCard
  simp [h]

theorem extractCard_wf_match (fs : List (String × PyVal))
    (hwf : WellFormedCard (PyVal.dict fs) = true)
    (hst : fs.lookup "supertype" = some (PyVal.str "Pokémon")) :
    extractCard (PyVal.dict fs) = Except.ok (some (rowSpec fs)) := by
  simp only [WellFormedCard, Bool.and_eq_true] at hwf
  obtain ⟨⟨⟨⟨⟨⟨⟨hid, hname⟩, hlevel⟩, hhp⟩, hsuper⟩, hsub⟩, htypes⟩, hweak⟩ := hwf
  unfold extractCard
  simp [hst, PyVal.eqStr, joinedField_wf fs "subtypes" hsub,
        joinedField_wf fs "types" htypes, weaknessesField_wf fs hweak, rowSpec]

theorem eqStr_getD_null (o : Option PyVal) (t : String)
    (hb : (o.getD PyVal.null).eqStr t = true) : o = some (PyVal.str t) := by
  cases o with
  | none => simp [PyVal.eqStr] at hb
  | some v => rcases v <;> simp_all [PyVal.eqStr]

theorem extractCard_match_of_some (c : PyVal) (r : Row)
    (h : extractCard c = Except.ok (some r)) :
    ∃ fs, c = PyVal.dict fs ∧ fs.lookup "supertype" = some (PyVal.str "Pokémon") := by
  rcases c with s | n | b | _ | l | fs
  case dict =>
    refine ⟨fs, rfl, ?_⟩
    by_cases hb : ((fs.lookup "supertype").getD PyVal.null).eqStr "Pokémon" = true
    · exact eqStr_getD_null _ _ hb
    · rw [extractCard_skip fs (by simpa using hb)] at h
      simp at h
  all_goals simp [extractCard, pyGet] at h

theorem extractCards_wf (cards : List PyVal)
    (h : ∀ c ∈ cards, WellFormedCard c = true) :
    extractCards cards = cards.filterMap recordRowSpec := by
  induction cards with
  | nil => rfl
  | cons c rest ih =>
    have hc := h c (by simp)
    have hrest : ∀ x ∈ rest, WellFormedCard x = true := fun x hx => h x (by simp [hx])
    rcases c with s | n | b | _ | l | fs
    case dict =>
      by_cases hb : ((fs.lookup "supertype").getD PyVal.null).eqStr "Pokémon" = true
      · have hm := extractCard_wf_match fs hc (eqStr_getD_null _ _ hb)
        simp only [extractCards, hm]
        simp [List.filterMap_cons, recordRowSpec, hb, ih hrest]
      · have hm := extractCard_skip fs (by simpa using hb)
        simp only [extractCards, hm]
        simp [List.filterMap_cons, recordRowSpec, hb, ih hrest]
    all_goals simp [WellFormedCard] at hc

/-! ## The loop on a file with a failing record -/

theorem extractCards_until_error (good : List PyVal) (bad : PyVal) (rest : List PyVal)
    (hg : ∀ c ∈ good, isOkE (extractCard c) = true)
    (hb : isOkE (extractCard bad) = false) :
    extractCards (good ++ bad :: rest) =
      good.filterMap (fun c => okRow (extractCard c)) := by
  induction good with
  | nil =>
    cases hbe : extractCard bad with
    | ok o => rw [hbe] at hb; simp [isOkE] at hb
    | error e => simp only [List.nil_append, List.filterMap_nil, extractCards, hbe]
  | cons c cs ih =>
    have hc := hg c (by simp)
    have hcs : ∀ x ∈ cs, isOkE (extractCard x) = true := fun x hx => hg x (by simp [hx])
    cases hce : extractCard c with
    | error e => rw [hce] at hc; simp [isOkE] at hc
    | ok o =>
      cases o with
      | none =>
        simp only [List.cons_append, extractCards, hce, List.filterMap_cons, okRow]
        exact ih hcs
      | some r =>
        simp only [List.cons_append, extractCards, hce, List.filterMap_cons, okRow]
        exact congrArg (List.cons r) (ih hcs)

/-! ## Aggregation across files -/

theorem foldl_extend (files : List FileRead) (acc : List Row) :
    files.foldl (fun a f => a ++ extract_pokemon_data f) acc = acc ++ allRowsOf files := by
  induction files generalizing acc with
  | nil => simp [allRowsOf]
  | cons f fs ih =>
    show List.foldl (fun a f => a ++ extract_pokemon_data f)
      (acc ++ extract_pokemon_data f) fs = acc ++ allRowsOf (f :: fs)
    rw [ih]
    have h2 : allRowsOf (f :: fs) = extract_pokemon_data f ++ allRowsOf fs := by
      show List.foldl (fun a f => a ++ extract_pokemon_data f)
        (extract_pokemon_data f) fs = extract_pokemon_data f ++ allRowsOf fs
      exact ih (extract_pokemon_data f)
    rw [h2, List.append_assoc]

theorem allRowsOf_cons (f : FileRead) (fs : List FileRead) :
    allRowsOf (f :: fs) = extract_pokemon_data f ++ allRowsOf fs := by
  show List.foldl (fun a f => a ++ extract_pokemon_data f)
    (extract_pokemon_data f) fs = extract_pokemon_data f ++ allRowsOf fs
  exact foldl_extend fs (extract_pokemon_data f)

theorem allRowsOf_split (files1 : List FileRead) (f : FileRead) (files2 : List FileRead) :
    allRowsOf (files1 ++ f :: files2) =
      allRowsOf files1 ++ extract_pokemon_data f ++ allRowsOf files2 := by
  induction files1 with
  | nil =>
    rw [List.nil_append, allRowsOf_cons,
        show allRowsOf ([] : List FileRead) = [] from rfl, List.nil_append]
  | cons g gs ih =>
    rw [List.cons_append, allRowsOf_cons, ih, allRowsOf_cons]
    simp [List.append_assoc]

/-! ## Newline counting in the tabular output -/

theorem countNL_append (a b : String) : countNL (a ++ b) = countNL a + countNL b := by
  simp [countNL, String.data_append, List.countP_append]

theorem csvEscapeChars_countP (cs : List Char) :
    (csvEscapeChars cs).countP (· == '\n') = cs.countP (· == '\n') := by
  induction cs with
  | nil => rfl
  | cons c cs ih =>
    by_cases hc : c = '"'
    · subst hc; simp [csvEscapeChars, List.countP_cons, ih]
    · simp [csvEscapeChars, hc, List.countP_cons, ih]

theorem countNL_csvQuote (s : String) : countNL (csvQuote s) = countNL s := by
  unfold csvQuote
  split
  · rw [countNL_append, countNL_append]
    rw [show countNL "\"" = 0 from rfl]
    rw [show countNL (String.mk (csvEscapeChars s.data)) =
        (csvEscapeChars s.data).countP (· == '\n') from rfl]
    rw [csvEscapeChars_countP]
    simp [countNL]
  · rfl

theorem countNL_joinSep_zero (sep : String) (hsep : countNL sep = 0) (xs : List String)
    (h : ∀ x ∈ xs, countNL x = 0) : countNL (joinSep sep xs) = 0 := by
  induction xs with
  | nil => rfl
  | cons x xs ih =>
    cases xs with
    | nil => exact h x (by simp)
    | cons y ys =>
      rw [show joinSep sep (x :: y :: ys) = x ++ sep ++ joinSep sep (y :: ys) from rfl,
          countNL_append, countNL_append, h x (by simp), hsep,
          ih (fun z hz => h z (by simp [hz]))]

theorem countNL_render (ls : List String) :
    countNL (renderLinesCRLF ls) = ls.length + (ls.map countNL).sum := by
  induction ls with
  | nil => rfl
  | cons l ls ih =>
    rw [show renderLinesCRLF (l :: ls) = l ++ "\r\n" ++ renderLinesCRLF ls from rfl,
        countNL_append, countNL_append, ih,
        show countNL "\r\n" = 1 from rfl]
    simp
    omega

theorem countNL_csvRowLine (r : Row) (h : ∀ cell ∈ rowCells r, countNL cell = 0) :
    countNL (csvRowLine r) = 0 := by
  unfold csvRowLine
  refine countNL_joinSep_zero "," rfl _ ?_
  intro x hx
  obtain ⟨cell, hcell, hquote⟩ := List.mem_map.mp hx
  rw [← hquote, countNL_csvQuote]
  exact h cell hcell

/-! ## Quote doubling in the statement output -/

theorem sqlEscapeChars_eq_flatMap (cs : List Char) :
    sqlEscapeChars cs = cs.flatMap (fun c => if c = '\'' then ['\'', '\''] else [c]) := by
  induction cs with
  | nil => rfl
  | cons c cs ih => by_cases hc : c = '\'' <;> simp [sqlEscapeChars, hc, ih]

theorem scanLit_cons_ne (c : Char) (l : List Char) (hc : c ≠ '\'') :
    scanLit (c :: l) = scanLit l := by
  rw [scanLit.eq_def]
  simp [hc]

theorem scanLit_two_quotes (l : List Char) :
    scanLit ('\'' :: '\'' :: l) = scanLit l := by
  rw [scanLit.eq_def]
  simp

theorem scanLit_close (l : List Char) (h : l.head? ≠ some '\'') :
    scanLit ('\'' :: l) = some l := by
  cases l with
  | nil => rfl
  | cons r rs =>
    have hr : r ≠ '\'' := by simpa using h
    rw [scanLit.eq_def]
    simp [hr]

theorem scanLit_escaped (s : List Char) (rest : List Char) (h : rest.head? ≠ some '\'') :
    scanLit (sqlEscapeChars s ++ '\'' :: rest) = some rest := by
  induction s with
  | nil => exact scanLit_close rest h
  | cons c cs ih =>
    by_cases hc : c = '\''
    · subst hc
      rw [show sqlEscapeChars ('\'' :: cs) = '\'' :: '\'' :: sqlEscapeChars cs from by
            simp [sqlEscapeChars],
          List.cons_append, List.cons_append, scanLit_two_quotes]
      exact ih
    · rw [show sqlEscapeChars (c :: cs) = c :: sqlEscapeChars cs from by
            simp [sqlEscapeChars, hc],
          List.cons_append, scanLit_cons_ne c _ hc]
      exact ih

/-! ## The path derivation -/

theorem hasCsv_cons (c : Char) (cs : List Char) :
    hasCsv (c :: cs) =
      ((decide (c = '.') && decide (cs.take 3 = ['c', 's', 'v'])) || hasCsv cs) := rfl

theorem csvToSql_stem (stem : List Char) (h : hasCsv stem = false) :
    csvToSql (stem ++ ['.', 'c', 's', 'v']) = stem ++ ['.', 's', 'q', 'l'] := by
  induction stem with
  | nil => rfl
  | cons c cs ih =>
    rw [hasCsv_cons, Bool.or_eq_false_iff] at h
    obtain ⟨h1, h2⟩ := h
    rw [List.cons_append, List.cons_append]
    rw [csvToSql.eq_def]
    split
    next rest heq =>
      exfalso
      simp only [List.cons.injEq] at heq
      obtain ⟨hc, htail⟩ := heq
      subst hc
      rcases cs with _ | ⟨c1, cs1⟩
      · simp at htail
      · simp only [List.cons_append, List.cons.injEq] at htail
        obtain ⟨hc1, htail⟩ := htail
        subst hc1
        rcases cs1 with _ | ⟨c2, cs2⟩
        · simp at htail
        · simp only [List.cons_append, List.cons.injEq] at htail
          obtain ⟨hc2, htail⟩ := htail
          subst hc2
          rcases cs2 with _ | ⟨c3, cs3⟩
          · simp at htail
          · simp only [List.cons_append, List.cons.injEq] at htail
            obtain ⟨hc3, _⟩ := htail
            subst hc3
            simp at h1
    next c' rest' heq =>
      simp only [List.cons.injEq] at heq
      obtain ⟨hc', hrest⟩ := heq
      subst hc'
      rw [← hrest]
      exact congrArg (List.cons c) (ih h2)
    next heq =>
      exact absurd heq (by simp)

theorem extSwapSpec_stem (stem : List Char) :
    extSwapSpec (String.mk (stem ++ ['.', 'c', 's', 'v'])) =
      String.mk (stem ++ ['.', 's', 'q', 'l']) := by
  unfold extSwapSpec
  rw [show (String.mk (stem ++ ['.', 'c', 's', 'v'])).data
      = stem ++ ['.', 'c', 's', 'v'] from rfl]
  rw [if_pos (by simp)]
  congr 1
  rw [List.reverse_append,
      show (['.', 'c', 's', 'v'] : List Char).reverse = ['v', 's', 'c', '.'] from rfl]
  rw [show (['v', 's', 'c', '.'] : List Char) ++ stem.reverse
      = 'v' :: 's' :: 'c' :: '.' :: stem.reverse from rfl]
  rw [List.dropWhile_cons, if_pos (by decide), List.dropWhile_cons, if_pos (by decide),
      List.dropWhile_cons, if_pos (by decide), List.dropWhile_cons, if_neg (by decide)]
  rw [List.reverse_cons, List.reverse_reverse, List.append_assoc]
  rfl

theorem sqlPath_single (f : FileRead) (p : String) (q : String × String)
    (h : (process_single_file f p).sqlFile = some q) : q.1 = csvToSqlPath p := by
  unfold process_single_file at h
  simp only [Option.map_eq_some'] at h
  obtain ⟨text, _, hq⟩ := h
  rw [← hq]

theorem sqlPath_multiple (files : List FileRead) (p : String) (q : String × String)
    (h : (process_multiple_json_files files p).sqlFile = some q) : q.1 = csvToSqlPath p := by
  unfold process_multiple_json_files at h
  by_cases he : files.isEmpty
  · simp [he] at h
  · simp only [he, Bool.false_eq_true, if_false, Option.map_eq_some'] at h
    obtain ⟨text, _, hq⟩ := h
    rw [← hq]

/-! ## Auxiliary facts for the claims -/

theorem isStr_getD (o : Option PyVal) (h : isStrOpt o = true) :
    (o.getD (PyVal.str "")).isStr = true := by
  cases o with
  | none => rfl
  | some v => cases v <;> simp_all [isStrOpt, PyVal.isStr]

/-! ## The claims -/

/-- Claim C1, counterexample: on a file whose second record is not an
object, the loop raises after appending the first record's row; the
reported failure does not yield an empty sequence — the first row is
returned. -/
theorem C1_error_not_empty_cex :
    fileFails mixedFile = true ∧ extract_pokemon_data mixedFile ≠ [] :=
  ⟨rfl, fun h => absurd (congrArg List.length h) (by decide)⟩

/-- Claim C1, amended: a missing file or malformed content yields the empty
sequence; an unclassified failure at some record is caught and the rows of
the records processed before the failing one are returned; the batch's
aggregate still carries every other file's rows. -/
theorem C1_error_amended :
    extract_pokemon_data FileRead.notFound = [] ∧
    extract_pokemon_data FileRead.badJson = [] ∧
    (∀ (good : List PyVal) (bad : PyVal) (rest : List PyVal),
      (∀ c ∈ good, isOkE (extractCard c) = true) →
      isOkE (extractCard bad) = false →
      extract_pokemon_data (FileRead.content (PyVal.list (good ++ bad :: rest))) =
        good.filterMap (fun c => okRow (extractCard c))) ∧
    (∀ (files1 : List FileRead) (f : FileRead) (files2 : List FileRead),
      allRowsOf (files1 ++ f :: files2) =
        allRowsOf files1 ++ extract_pokemon_data f ++ allRowsOf files2) := by
  refine ⟨rfl, rfl, ?_, allRowsOf_split⟩
  intro good bad rest hg hb
  exact extractCards_until_error good bad rest hg hb

/-- Witness for the amended C1 at a concrete failing file: the valid record
before the failure contributes its row. -/
theorem C1_error_amended_witness :
    (∀ c ∈ [goodCard], isOkE (extractCard c) = true) ∧
    isOkE (extractCard (PyVal.int 5)) = false ∧
    extract_pokemon_data (FileRead.content (PyVal.list ([goodCard] ++ PyVal.int 5 :: []))) =
      [goodCard].filterMap (fun c => okRow (extractCard c)) :=
  ⟨by decide, rfl,
   C1_error_amended.2.2.1 [goodCard] (PyVal.int 5) [] (by decide) rfl⟩

/-- Claim C2: a record whose `supertype` is not the exact string `Pokémon`
produces no row, and on records in the documented input format a row is
produced precisely when `supertype` equals `Pokémon`. -/
theorem C2_supertype_filter :
    (∀ fs : List (String × PyVal),
      ((fs.lookup "supertype").getD PyVal.null).eqStr "Pokémon" = false →
      extractCard (PyVal.dict fs) = Except.ok Option.none) ∧
    (∀ c : PyVal, WellFormedCard c = true →
      ((∃ r, extractCard c = Except.ok (some r)) ↔
        ∃ fs, c = PyVal.dict fs ∧ fs.lookup "supertype" = some (PyVal.str "Pokémon"))) := by
  refine ⟨extractCard_skip, ?_⟩
  intro c hwf
  constructor
  · rintro ⟨r, hr⟩
    exact extractCard_match_of_some c r hr
  · rintro ⟨fs, rfl, hst⟩
    exact ⟨rowSpec fs, extractCard_wf_match fs hwf hst⟩

/-- Witness for C2 at the Pikachu record (matching, row produced) — the
hypotheses are discharged at a concrete well-formed record. -/
theorem C2_supertype_filter_witness :
    WellFormedCard pikachuCard = true ∧
    (∃ r, extractCard pikachuCard = Except.ok (some r)) :=
  ⟨rfl, (C2_supertype_filter.2 pikachuCard rfl).mpr ⟨_, rfl, rfl⟩⟩

/-- Claim C3: on a file of records in the documented input format, the
extracted sequence is exactly the matching records in source order, each
mapped to the row the spec describes (identifier/name copied, list fields
comma-joined in source order, weaknesses rendered `type(value)`). -/
theorem C3_row_mapping (cards : List PyVal)
    (h : ∀ c ∈ cards, WellFormedCard c = true) :
    extract_pokemon_data (FileRead.content (PyVal.list cards)) =
      cards.filterMap recordRowSpec := by
  show extractCards cards = cards.filterMap recordRowSpec
  exact extractCards_wf cards h

/-- Witness for C3 at the two-record scenario file: exactly one row, for
Pikachu. -/
theorem C3_row_mapping_witness :
    (∀ c ∈ [pikachuCard, trainerCard], WellFormedCard c = true) ∧
    extract_pokemon_data (FileRead.content (PyVal.list [pikachuCard, trainerCard])) =
      [pikachuCard, trainerCard].filterMap recordRowSpec :=
  ⟨by decide, C3_row_mapping [pikachuCard, trainerCard] (by decide)⟩

/-- Claim C4: for a row produced from a record in the documented input
format, the four copied fields are strings, and absent source fields (and
empty arrays) yield the empty string; the three joined fields are strings
by construction. -/
theorem C4_fields_strings (fs : List (String × PyVal)) (r : Row)
    (hwf : WellFormedCard (PyVal.dict fs) = true)
    (h : extractCard (PyVal.dict fs) = Except.ok (some r)) :
    (r.id.isStr = true ∧ r.name.isStr = true ∧ r.level.isStr = true ∧ r.hp.isStr = true) ∧
    (fs.lookup "id" = Option.none → r.id = PyVal.str "") ∧
    (fs.lookup "name" = Option.none → r.name = PyVal.str "") ∧
    (fs.lookup "level" = Option.none → r.level = PyVal.str "") ∧
    (fs.lookup "hp" = Option.none → r.hp = PyVal.str "") ∧
    ((fs.lookup "subtypes" = Option.none ∨ fs.lookup "subtypes" = some (PyVal.list [])) →
      r.subtypes = "") ∧
    ((fs.lookup "types" = Option.none ∨ fs.lookup "types" = some (PyVal.list [])) →
      r.types = "") ∧
    ((fs.lookup "weaknesses" = Option.none ∨ fs.lookup "weaknesses" = some (PyVal.list [])) →
      r.weaknesses = "") := by
  obtain ⟨fs', heq, hst⟩ := extractCard_match_of_some _ r h
  have hfs : fs = fs' := by injection heq
  rw [← hfs] at hst
  rw [extractCard_wf_match fs hwf hst] at h
  have hr : r = rowSpec fs := by
    cases h
    rfl
  subst hr
  simp only [WellFormedCard, Bool.and_eq_true] at hwf
  obtain ⟨⟨⟨⟨⟨⟨⟨hid, hname⟩, hlevel⟩, hhp⟩, hsuper⟩, hsub⟩, htypes⟩, hweak⟩ := hwf
  refine ⟨⟨isStr_getD _ hid, isStr_getD _ hname, isStr_getD _ hlevel, isStr_getD _ hhp⟩,
    ?_, ?_, ?_, ?_, ?_, ?_, ?_⟩
  · intro hk; simp [rowSpec, hk]
  · intro hk; simp [rowSpec, hk]
  · intro hk; simp [rowSpec, hk]
  · intro hk; simp [rowSpec, hk]
  · rintro (hk | hk) <;> simp [rowSpec, hk, listOfOpt, joinSep]
  · rintro (hk | hk) <;> simp [rowSpec, hk, listOfOpt, joinSep]
  · rintro (hk | hk) <;> simp [rowSpec, hk, listOfOpt, joinSep]

/-- Witness for C4 at a record with absent optional fields and an empty
`subtypes` array: all copied fields are strings and the empty cases give
the empty string. -/
theorem C4_fields_strings_witness :
    WellFormedCard (PyVal.dict sparseCardFields) = true ∧
    ((rowSpec sparseCardFields).id.isStr = true ∧
      (rowSpec sparseCardFields).name.isStr = true ∧
      (rowSpec sparseCardFields).level.isStr = true ∧
      (rowSpec sparseCardFields).hp.isStr = true) ∧
    (rowSpec sparseCardFields).subtypes = "" ∧
    (rowSpec sparseCardFields).weaknesses = "" :=
  ⟨rfl,
   (C4_fields_strings sparseCardFields (rowSpec sparseCardFields) rfl rfl).1,
   (C4_fields_strings sparseCardFields (rowSpec sparseCardFields) rfl rfl).2.2.2.2.2.1
     (Or.inr rfl),
   (C4_fields_strings sparseCardFields (rowSpec sparseCardFields) rfl rfl).2.2.2.2.2.2.2
     (Or.inl rfl)⟩

/-- Claim C5: on a non-empty aggregate the tabular writer emits the exact
seven-column header line followed by one line per row (N+1 lines in all);
when no cell holds a newline the written text has exactly N+1 newline
characters. -/
theorem C5_csv_shape (rows : List Row) (hne : rows ≠ [])
    (hclean : ∀ r ∈ rows, ∀ cell ∈ rowCells r, countNL cell = 0) :
    write_to_csv rows = some (renderLinesCRLF (csvHeader :: rows.map csvRowLine)) ∧
    csvHeader = "id,name,subtypes,level,hp,types,weaknesses" ∧
    (csvHeader :: rows.map csvRowLine).length = rows.length + 1 ∧
    (∀ out, write_to_csv rows = some out → countNL out = rows.length + 1) := by
  have hisEmpty : rows.isEmpty = false := by
    cases rows with
    | nil => exact absurd rfl hne
    | cons r rs => rfl
  refine ⟨by simp [write_to_csv, hisEmpty], rfl, by simp, ?_⟩
  intro out hout
  simp only [write_to_csv, hisEmpty, Bool.false_eq_true, if_false,
    Option.some.injEq] at hout
  rw [← hout, countNL_render]
  have hzero : ∀ l ∈ (csvHeader :: rows.map csvRowLine).map countNL, l = 0 := by
    intro l hl
    obtain ⟨line, hline, hcount⟩ := List.mem_map.mp hl
    rcases List.mem_cons.mp hline with hhead | htail
    · rw [← hcount, hhead]; rfl
    · obtain ⟨r, hrmem, hrline⟩ := List.mem_map.mp htail
      rw [← hcount, ← hrline]
      exact countNL_csvRowLine r (hclean r hrmem)
  rw [List.sum_eq_zero hzero]
  simp

/-- Witness for C5 at a one-row aggregate: header plus one line. -/
theorem C5_csv_shape_witness :
    ([pikachuRow] ≠ ([] : List Row)) ∧
    (∀ r ∈ [pikachuRow], ∀ cell ∈ rowCells r, countNL cell = 0) ∧
    (csvHeader :: [pikachuRow].map csvRowLine).length = [pikachuRow].length + 1 :=
  ⟨by simp, by decide, (C5_csv_shape [pikachuRow] (by simp) (by decide)).2.2.1⟩

/-- Claim C6: the statement writer doubles every single quote of a string
field value (the escape is exactly per-character doubling), the resulting
literal terminates at its closing quote (no unterminated string), and a
non-empty aggregate yields the preamble followed by one INSERT statement
per row. -/
theorem C6_sql_escaping (s : String) (rest : List Char) (h : rest.head? ≠ some '\'') :
    sqlEscapeVal (PyVal.str s) = String.mk (sqlEscapeChars s.data) ∧
    sqlEscapeChars s.data =
      s.data.flatMap (fun c => if c = '\'' then ['\'', '\''] else [c]) ∧
    scanLit (sqlEscapeChars s.data ++ '\'' :: rest) = some rest ∧
    (∀ rows : List Row, rows ≠ [] →
      write_to_sql rows = some (sqlPreamble ++ String.join (rows.map insertStatement))) := by
  refine ⟨rfl, sqlEscapeChars_eq_flatMap s.data, scanLit_escaped s.data rest h, ?_⟩
  intro rows hne
  have hisEmpty : rows.isEmpty = false := by
    cases rows with
    | nil => exact absurd rfl hne
    | cons r rs => rfl
  simp [write_to_sql, hisEmpty]

/-- Witness for C6 at a name holding a single quote: the literal content is
the name with the quote doubled, and the scanner stops exactly at the
closing quote. -/
theorem C6_sql_escaping_witness :
    (([] : List Char).head? ≠ some '\'') ∧
    scanLit (sqlEscapeChars "Farfetch'd".data ++ '\'' :: []) = some [] ∧
    sqlEscapeString "Farfetch'd" = "Farfetch''d" :=
  ⟨by decide, (C6_sql_escaping "Farfetch'd" [] (by decide)).2.2.1, by decide⟩

/-- Claim C7, counterexample: for the tabular path `x.csv.csv` the program
derives `x.sql.sql` (every `.csv` occurrence is replaced), while swapping
only the extension would give `x.csv.sql`. -/
theorem C7_path_cex :
    (process_single_file (FileRead.content (PyVal.list [goodCard])) "x.csv.csv").sqlFile.map
        Prod.fst = some "x.sql.sql" ∧
    extSwapSpec "x.csv.csv" = "x.csv.sql" ∧
    ("x.sql.sql" : String) ≠ "x.csv.sql" :=
  ⟨by decide, by decide, by decide⟩

/-- Claim C7, amended: both entry points derive the statement path by
replacing every occurrence of `.csv` in the tabular path with `.sql`; when
`.csv` occurs only as the trailing extension this coincides with swapping
the extension. -/
theorem C7_path_amended (stem : List Char) (h : hasCsv stem = false) :
    (∀ f p q, (process_single_file f p).sqlFile = some q → q.1 = csvToSqlPath p) ∧
    (∀ files p q,
      (process_multiple_json_files files p).sqlFile = some q → q.1 = csvToSqlPath p) ∧
    csvToSqlPath (String.mk (stem ++ ['.', 'c', 's', 'v'])) =
      String.mk (stem ++ ['.', 's', 'q', 'l']) ∧
    csvToSqlPath (String.mk (stem ++ ['.', 'c', 's', 'v'])) =
      extSwapSpec (String.mk (stem ++ ['.', 'c', 's', 'v'])) := by
  have hmain : csvToSqlPath (String.mk (stem ++ ['.', 'c', 's', 'v'])) =
      String.mk (stem ++ ['.', 's', 'q', 'l']) := by
    unfold csvToSqlPath
    rw [show (String.mk (stem ++ ['.', 'c', 's', 'v'])).data
        = stem ++ ['.', 'c', 's', 'v'] from rfl, csvToSql_stem stem h]
  refine ⟨sqlPath_single, sqlPath_multiple, hmain, ?_⟩
  rw [hmain, extSwapSpec_stem]

/-- Witness for the amended C7 at the stem `data`: the derived path agrees
with the extension swap. -/
theorem C7_path_amended_witness :
    hasCsv "data".data = false ∧
    csvToSqlPath (String.mk ("data".data ++ ['.', 'c', 's', 'v'])) =
      extSwapSpec (String.mk ("data".data ++ ['.', 'c', 's', 'v'])) :=
  ⟨by decide, (C7_path_amended "data".data (by decide)).2.2.2⟩

/-- Claim C8: with an empty aggregate — in particular with no input files —
both writers report and write nothing, and the batch driver writes neither
output file. -/
theorem C8_empty_no_write (files : List FileRead) (out : String)
    (h : files = [] ∨ allRowsOf files = []) :
    write_to_csv [] = Option.none ∧ write_to_sql [] = Option.none ∧
    (process_multiple_json_files files out).csvFile = Option.none ∧
    (process_multiple_json_files files out).sqlFile = Option.none := by
  refine ⟨rfl, rfl, ?_, ?_⟩ <;>
  · rcases h with h | h
    · subst h; rfl
    · unfold process_multiple_json_files
      by_cases he : files.isEmpty
      · simp [he]
      · simp [he, h, write_to_csv, write_to_sql]

/-- Witness for C8 at a directory with one file and no matching records:
nothing is written. -/
theorem C8_empty_no_write_witness :
    allRowsOf [FileRead.content (PyVal.list [trainerCard])] = [] ∧
    (process_multiple_json_files [FileRead.content (PyVal.list [trainerCard])]
        "all_pokemon_data.csv").csvFile = Option.none :=
  ⟨rfl, (C8_empty_no_write [FileRead.content (PyVal.list [trainerCard])]
      "all_pokemon_data.csv" (Or.inr rfl)).2.2.1⟩

/-- Claim C9: the pipeline from directory listing to output files is a pure
function — two runs over the same listing produce byte-identical tabular
(and statement) output. -/
theorem C9_deterministic (files1 files2 : List FileRead) (out : String)
    (h : files1 = files2) :
    (process_multiple_json_files files1 out).csvFile =
      (process_multiple_json_files files2 out).csvFile ∧
    (process_multiple_json_files files1 out).sqlFile =
      (process_multiple_json_files files2 out).sqlFile := by
  subst h
  exact ⟨rfl, rfl⟩

/-- Witness for C9 at a concrete one-file directory. -/
theorem C9_deterministic_witness :
    [FileRead.content (PyVal.list [pikachuCard])] =
      [FileRead.content (PyVal.list [pikachuCard])] ∧
    (process_multiple_json_files [FileRead.content (PyVal.list [pikachuCard])]
        "all_pokemon_data.csv").csvFile =
      (process_multiple_json_files [FileRead.content (PyVal.list [pikachuCard])]
        "all_pokemon_data.csv").csvFile :=
  ⟨rfl, (C9_deterministic _ _ "all_pokemon_data.csv" rfl).1⟩

/-- Claim C10: a record with no `supertype` field at all is skipped — it is
treated like a non-matching record, not as an error. -/
theorem C10_absent_supertype (fs : List (String × PyVal))
    (h : fs.lookup "supertype" = Option.none) :
    extractCard (PyVal.dict fs) = Except.ok Option.none := by
  apply extractCard_skip
  rw [h]
  rfl

/-- Witness for C10 at a record holding only a name. -/
theorem C10_absent_supertype_witness :
    List.lookup "supertype" [("name", PyVal.str "Mystery")] = Option.none ∧
    extractCard (PyVal.dict [("name", PyVal.str "Mystery")]) = Except.ok Option.none :=
  ⟨rfl, C10_absent_supertype [("name", PyVal.str "Mystery")] rfl⟩
